import Mathlib

/-!
Verification of the KeyQuarry store kernel specification.

The store kernel of this repository (package `server`) is not present in
the source tree here; only its tests (`cmd` package), the protobuf
declarations (`api/keyquarry.proto`, `api/admin.proto`) and client callers
are. All kernel behaviour below is therefore modelled from the
specification text, faithful to its words; each such definition carries a
doc comment starting with `Modelled from the spec:`.

Modelling conventions:
- Go strings and byte slices are `List Nat` (byte lists).
- Wall-clock time is a `Nat` logical timestamp passed to each operation.
- Fallible operations return `Kernel × Except Err resp`; on failure the
  input kernel is returned unchanged (the spec: per-key mutations roll
  back in memory before error return).
-/

namespace Keyquarry

/-- Bytes of an ASCII string, for readable concrete inputs. -/
def strBytes (s : String) : List Nat := s.data.map Char.toNat

/-- Modelled from the spec: the FNV-style 64-bit fingerprint of a value
(`HASH_ALGORITHM` value fingerprinting); FNV-1a with 64-bit wraparound. -/
def fnv64 (bs : List Nat) : Nat :=
  bs.foldl (fun h b => ((h ^^^ b) * 1099511628211) % (2 ^ 64)) 14695981039346656037

/-- Modelled from the spec: a lock record holds the owning client id, the
lock-acquired timestamp and an optional expiry timestamp. -/
structure LockRecord where
  owner : List Nat
  acquiredAt : Nat
  expiresAt : Option Nat
deriving DecidableEq, Repr

/-- Modelled from the spec: every revision carries the (value,
content-type, hash, version, timestamp, client id) snapshot of an entry at
the moment its successor was written. -/
structure Revision where
  value : List Nat
  contentType : List Nat
  hash : Nat
  version : Nat
  timestamp : Nat
  clientId : List Nat
deriving DecidableEq, Repr

/-- Modelled from the spec: a key entry with value, content-type, version
(monotone, starts at 1), hash, created/updated timestamps, optional
lifespan and lifespan-set timestamp, optional lock record, and the bounded
revision history kept newest-first. -/
structure Entry where
  value : List Nat
  contentType : List Nat
  version : Nat
  hash : Nat
  created : Nat
  updated : Option Nat
  lifespan : Option Nat
  lifespanSet : Option Nat
  lock : Option LockRecord
  history : List Revision
deriving DecidableEq, Repr

/-- Modelled from the spec: the per-key lifetime metric record (access
count + first/last accessed; set count + first/last set; lock count +
first/last locked), surviving key deletion and restart. -/
structure KeyMetricRec where
  accessCount : Nat
  firstAccessed : Option Nat
  lastAccessed : Option Nat
  setCount : Nat
  firstSet : Option Nat
  lastSet : Option Nat
  lockCount : Nat
  firstLocked : Option Nat
  lastLocked : Option Nat
deriving DecidableEq, Repr

/-- Modelled from the spec: the recognized configuration options the
kernel consults (MAX_KEY_LENGTH, MAX_VALUE_SIZE, MAX_KEYS, REVISION_LIMIT,
MIN_LIFESPAN, EAGER_PRUNE_AT, EAGER_PRUNE_TO, PRIVILEGED_CLIENT_ID, the
reserved key name marker, SNAPSHOT.LIMIT). A zero MAX_KEYS means
unlimited. -/
structure Config where
  maxKeyLength : Nat
  maxValueSize : Nat
  maxNumberOfKeys : Nat
  revisionLimit : Nat
  minLifespan : Nat
  eagerPruneAt : Nat
  eagerPruneTo : Nat
  privilegedClientID : List Nat
  reservedNS : List Nat
  snapshotLimit : Nat
deriving DecidableEq, Repr

/-- Modelled from the spec: the closed set of key event kinds. -/
inductive KeyEventKind
  | created
  | updated
  | deleted
  | expired
  | locked
  | unlocked
  | expunged
  | accessed
  | lifespanSet
  | lifespanRenewed
deriving DecidableEq, Repr

/-- Modelled from the spec: an emitted key event. -/
structure Event where
  key : List Nat
  kind : KeyEventKind
  time : Nat
  clientId : List Nat
deriving DecidableEq, Repr

/-- Modelled from the spec: the closed error taxonomy. -/
inductive Err
  | invalidArgument
  | notFound
  | alreadyExists
  | locked
  | readOnly
  | capacityExhausted
  | permissionDenied
  | cancelled
  | internal
deriving DecidableEq, Repr

/-- Modelled from the spec: the store kernel state: configuration,
readonly flag, the indexed map of keys (association list), the per-key
lifetime metric table, the log of published events, and the
eager-prune-triggered counter surfaced by Stats. -/
structure Kernel where
  config : Config
  readonly : Bool
  entries : List (List Nat × Entry)
  metrics : List (List Nat × KeyMetricRec)
  events : List Event
  eagerPruneTriggered : Nat
deriving DecidableEq, Repr

/-- Association-list lookup by key. -/
def alookup {α : Type} : List (List Nat × α) → List Nat → Option α
  | [], _ => none
  | (k, v) :: rest, key => if k = key then some v else alookup rest key

/-- Association-list update-or-append. -/
def aupsert {α : Type} : List (List Nat × α) → List Nat → α → List (List Nat × α)
  | [], key, v => [(key, v)]
  | (k, w) :: rest, key, v =>
      if k = key then (k, v) :: rest else (k, w) :: aupsert rest key v

/-- Association-list removal of one key. -/
def aremove {α : Type} : List (List Nat × α) → List Nat → List (List Nat × α)
  | [], _ => []
  | (k, w) :: rest, key => if k = key then rest else (k, w) :: aremove rest key

/-- True when the first list is an initial segment of the second. -/
def startsWith : List Nat → List Nat → Bool
  | [], _ => true
  | _ :: _, [] => false
  | a :: as, b :: bs => a = b && startsWith as bs

/-- Modelled from the spec: a reserved key is one whose name begins with
the configured reserved marker (e.g. `keyquarry/`). -/
def isReservedName (cfg : Config) (key : List Nat) : Bool :=
  startsWith cfg.reservedNS key

/-- Modelled from the spec: an expired lock is treated as absent. -/
def lockActive (now : Nat) (l : LockRecord) : Bool :=
  match l.expiresAt with
  | none => true
  | some t => now < t

/-- True when the entry carries an active lock owned by a different,
non-privileged caller. -/
def lockedByOther (cfg : Config) (now : Nat) (client : List Nat) (e : Entry) : Bool :=
  match e.lock with
  | none => false
  | some l => lockActive now l && !(l.owner = client) && !(client = cfg.privilegedClientID)

/-- Modelled from the spec: lazy lifespan expiry; an entry is expired once
its lifespan, measured from the lifespan-set timestamp, has elapsed. -/
def entryExpired (now : Nat) (e : Entry) : Bool :=
  match e.lifespan, e.lifespanSet with
  | some d, some t0 => t0 + d ≤ now
  | _, _ => false

/-- Modelled from the spec: content-type inference from the first bytes of
the value when unset (content sniffing abstracted to a deterministic
function of the value bytes). -/
def inferContentType (v : List Nat) : List Nat :=
  if v.all (fun b => b < 128) then strBytes "text/plain; charset=utf-8"
  else strBytes "application/octet-stream"

/-- SetResponse of the RPC surface (success, is-new). -/
structure SetResponse where
  success : Bool
  isNew : Bool
deriving DecidableEq, Repr

/-- GetResponse of the RPC surface. -/
structure GetResponse where
  value : List Nat
deriving DecidableEq, Repr

/-- RevisionResponse of the RPC surface (value, timestamp). -/
structure RevisionResponse where
  value : List Nat
  timestamp : Nat
deriving DecidableEq, Repr

/-- DeleteResponse of the RPC surface. -/
structure DeleteResponse where
  deleted : Bool
deriving DecidableEq, Repr

/-- LockResponse of the RPC surface. -/
structure LockResponse where
  success : Bool
deriving DecidableEq, Repr

/-- UnlockResponse of the RPC surface. -/
structure UnlockResponse where
  success : Bool
deriving DecidableEq, Repr

/-- ReadOnlyResponse of the RPC surface. -/
structure ReadOnlyResponse where
  success : Bool
deriving DecidableEq, Repr

/-- A Set request: key, value, optional content-type (empty list means
unset), optional lock-duration and optional lifespan. -/
structure SetRequest where
  key : List Nat
  value : List Nat
  contentType : List Nat
  lockDuration : Option Nat
  lifespan : Option Nat
deriving DecidableEq, Repr

instance {ε α : Type} [DecidableEq ε] [DecidableEq α] : DecidableEq (Except ε α) :=
  fun a b =>
    match a, b with
    | .error e, .error f =>
        if h : e = f then isTrue (by rw [h])
        else isFalse (fun hc => h (by cases hc; rfl))
    | .ok x, .ok y =>
        if h : x = y then isTrue (by rw [h])
        else isFalse (fun hc => h (by cases hc; rfl))
    | .error _, .ok _ => isFalse (fun hc => Except.noConfusion hc)
    | .ok _, .error _ => isFalse (fun hc => Except.noConfusion hc)

/-- The fresh per-key metric record. -/
def emptyMetric : KeyMetricRec :=
  ⟨0, none, none, 0, none, none, 0, none, none⟩

/-- Tick the set counter of a metric record. -/
def tickSet (now : Nat) (m : KeyMetricRec) : KeyMetricRec :=
  { m with
    setCount := m.setCount + 1
    firstSet := some (m.firstSet.getD now)
    lastSet := some now }

/-- Tick the access counter of a metric record. -/
def tickAccess (now : Nat) (m : KeyMetricRec) : KeyMetricRec :=
  { m with
    accessCount := m.accessCount + 1
    firstAccessed := some (m.firstAccessed.getD now)
    lastAccessed := some now }

/-- Tick the lock counter of a metric record. -/
def tickLock (now : Nat) (m : KeyMetricRec) : KeyMetricRec :=
  { m with
    lockCount := m.lockCount + 1
    firstLocked := some (m.firstLocked.getD now)
    lastLocked := some now }

/-- Apply a metric update for one key in the metric table. -/
def updMetric (k : Kernel) (key : List Nat) (f : KeyMetricRec → KeyMetricRec) : Kernel :=
  { k with metrics := aupsert k.metrics key (f ((alookup k.metrics key).getD emptyMetric)) }

/-- Append one event to the publication log. -/
def emit (k : Kernel) (key : List Nat) (kind : KeyEventKind) (now : Nat)
    (client : List Nat) : Kernel :=
  { k with events := k.events ++ [⟨key, kind, now, client⟩] }

/-- Number of logged events of a given kind. -/
def countEvents (k : Kernel) (kind : KeyEventKind) : Nat :=
  (k.events.filter (fun ev => decide (ev.kind = kind))).length

/-- Stats: the current number of keys in the store. -/
def statsKeys (k : Kernel) : Nat := k.entries.length

/-- Boolean lexicographic comparison of (primary, secondary) rank pairs. -/
def rankLe (a b : Nat × Nat) : Bool :=
  a.1 < b.1 || (a.1 = b.1 && a.2 ≤ b.2)

/-- Modelled from the spec: staleness rank of a prune candidate, ordered
so that the least-recently-accessed entry comes first, with ties broken by
the earlier created timestamp. An entry never accessed ranks by its
created timestamp. -/
def pruneRank (k : Kernel) (p : List Nat × Entry) : Nat × Nat :=
  (((alookup k.metrics p.1).bind (fun m => m.lastAccessed)).getD p.2.created, p.2.created)

/-- Modelled from the spec: prune candidates are entries not currently
locked, not reserved and not younger than MinLifespan. -/
def pruneCandidates (now : Nat) (k : Kernel) : List (List Nat × Entry) :=
  k.entries.filter
    (fun p =>
      !(match p.2.lock with
        | none => false
        | some l => lockActive now l) &&
      !(isReservedName k.config p.1) &&
      decide (p.2.created + k.config.minLifespan ≤ now))

/-- Modelled from the spec: the synchronous eager prune. It selects the
least-recently-accessed unlocked, non-reserved, old-enough entries, drops
enough of them to bring the store down to EagerPruneTo keys, emits one
Expunged event for each, preserves the per-key metrics, and increments the
eager-prune-triggered counter. Returns the pruned kernel and the list of
expunged key names. -/
def eagerPrune (now : Nat) (k : Kernel) : Kernel × List (List Nat) :=
  let sorted := List.insertionSort
    (fun a b => rankLe (pruneRank k a) (pruneRank k b) = true) (pruneCandidates now k)
  let victims := (sorted.take (k.entries.length - k.config.eagerPruneTo)).map Prod.fst
  let k1 :=
    { k with
      entries := k.entries.filter (fun p => !(victims.contains p.1))
      events := k.events ++ victims.map (fun key => ⟨key, .expunged, now, strBytes "keyquarry"⟩)
      eagerPruneTriggered := k.eagerPruneTriggered + 1 }
  (k1, victims)

/-- The entry produced by an accepted Set that creates a new key. -/
def newEntry (client : List Nat) (now : Nat) (req : SetRequest) : Entry :=
  { value := req.value
    contentType := if req.contentType = [] then inferContentType req.value else req.contentType
    version := 1
    hash := fnv64 req.value
    created := now
    updated := none
    lifespan := req.lifespan
    lifespanSet := req.lifespan.map (fun _ => now)
    lock := req.lockDuration.map (fun d => ⟨client, now, some (now + d)⟩)
    history := [] }

/-- Modelled from the spec: a Set on an existing entry with identical hash
and no metadata change is a no-op and is not versioned. -/
def isNoopSet (e : Entry) (req : SetRequest) : Bool :=
  fnv64 req.value = e.hash &&
  (req.contentType = [] || req.contentType = e.contentType) &&
  req.lockDuration = none && req.lifespan = none

/-- The entry produced by an accepted non-noop Set on an existing entry:
version + 1, prior snapshot pushed onto the newest-first history and the
oldest truncated past RevisionLimit, lifespan (re)armed, lock installed or
extended when a lock-duration is given, an expired lock cleaned. -/
def updatedEntry (cfg : Config) (client : List Nat) (now : Nat) (req : SetRequest)
    (e : Entry) : Entry :=
  let rev : Revision := ⟨e.value, e.contentType, e.hash, e.version, now, client⟩
  let lifespan := req.lifespan <|> e.lifespan
  { value := req.value
    contentType := if req.contentType = [] then inferContentType req.value else req.contentType
    version := e.version + 1
    hash := fnv64 req.value
    created := e.created
    updated := some now
    lifespan := lifespan
    lifespanSet := if lifespan.isSome then some now else e.lifespanSet
    lock :=
      match req.lockDuration with
      | some d => some ⟨client, now, some (now + d)⟩
      | none =>
          match e.lock with
          | none => none
          | some l => if lockActive now l then some l else none
    history := (rev :: e.history).take cfg.revisionLimit }

/-- Insert a freshly created entry, emitting Created (plus Locked /
LifespanSet when the request carries them) and ticking the set metric. -/
def insertNew (client : List Nat) (now : Nat) (req : SetRequest) (k : Kernel) :
    Kernel × Except Err SetResponse :=
  let e := newEntry client now req
  let k1 := { k with entries := aupsert k.entries req.key e }
  let k2 := emit k1 req.key .created now client
  let k3 := if req.lockDuration.isSome then emit k2 req.key .locked now client else k2
  let k4 := if req.lifespan.isSome then emit k3 req.key .lifespanSet now client else k3
  let k5 := updMetric k4 req.key (tickSet now)
  let k6 := if req.lockDuration.isSome then updMetric k5 req.key (tickLock now) else k5
  (k6, .ok ⟨true, true⟩)

/-- Modelled from the spec: the Set operation. Rejected when: readonly
mode and caller not privileged; key name invalid (empty or longer than
MaxKeyLength); value exceeds MaxValueSize; key exists and is locked by
another client; capacity reached and eager pruning cannot reclaim. An
existing expired entry is deleted and created as new. On create at
MaxNumberOfKeys the pruner is first invoked synchronously; if space is
still unavailable the Set fails with capacity-exhausted. -/
def setOp (client : List Nat) (now : Nat) (req : SetRequest) (k : Kernel) :
    Kernel × Except Err SetResponse :=
  if k.readonly && !(client = k.config.privilegedClientID) then (k, .error .readOnly)
  else if req.key = [] || k.config.maxKeyLength < req.key.length then
    (k, .error .invalidArgument)
  else if k.config.maxValueSize < req.value.length then (k, .error .invalidArgument)
  else
    match alookup k.entries req.key with
    | some e =>
        if entryExpired now e then
          let k1 := emit { k with entries := aremove k.entries req.key }
            req.key .expired now (strBytes "keyquarry")
          insertNew client now req k1
        else if lockedByOther k.config now client e then (k, .error .locked)
        else if isNoopSet e req then
          (updMetric k req.key (tickSet now), .ok ⟨true, false⟩)
        else
          let e1 := updatedEntry k.config client now req e
          let k1 := { k with entries := aupsert k.entries req.key e1 }
          let k2 := emit k1 req.key .updated now client
          let k3 := if req.lockDuration.isSome then emit k2 req.key .locked now client else k2
          let k4 :=
            if req.lifespan.isSome then
              (if e.lifespan.isSome then emit k3 req.key .lifespanRenewed now client
               else emit k3 req.key .lifespanSet now client)
            else k3
          let k5 := updMetric k4 req.key (tickSet now)
          let k6 := if req.lockDuration.isSome then updMetric k5 req.key (tickLock now) else k5
          (k6, .ok ⟨true, false⟩)
    | none =>
        if k.config.maxNumberOfKeys ≠ 0 &&
            k.config.maxNumberOfKeys ≤ k.entries.length then
          let k1 := (eagerPrune now k).1
          if k.config.maxNumberOfKeys ≤ k1.entries.length then
            (k1, .error .capacityExhausted)
          else insertNew client now req k1
        else insertNew client now req k

/-- Modelled from the spec: Get fails not-found when the entry is absent
or has expired (lazy expiry removes the entry and emits Expired first);
otherwise it returns the current value and ticks the access metric,
emitting Accessed. -/
def getOp (client : List Nat) (now : Nat) (key : List Nat) (k : Kernel) :
    Kernel × Except Err GetResponse :=
  match alookup k.entries key with
  | none => (k, .error .notFound)
  | some e =>
      if entryExpired now e then
        (emit { k with entries := aremove k.entries key } key .expired now
          (strBytes "keyquarry"), .error .notFound)
      else
        (emit (updMetric k key (tickAccess now)) key .accessed now client, .ok ⟨e.value⟩)

/-- Modelled from the spec: GetRevision. Version 0 means current;
positive versions index the retained ring with 1 the oldest retained
revision; out-of-range versions fail not-found. Honours lazy expiry. -/
def getRevisionOp (now : Nat) (key : List Nat) (version : Nat) (k : Kernel) :
    Kernel × Except Err RevisionResponse :=
  match alookup k.entries key with
  | none => (k, .error .notFound)
  | some e =>
      if entryExpired now e then
        (emit { k with entries := aremove k.entries key } key .expired now
          (strBytes "keyquarry"), .error .notFound)
      else if version = 0 then (k, .ok ⟨e.value, e.updated.getD e.created⟩)
      else
        match e.history.reverse[version - 1]? with
        | some r => (k, .ok ⟨r.value, r.timestamp⟩)
        | none => (k, .error .notFound)

/-- Modelled from the spec: Delete fails if the key is locked by another
client and the caller is not privileged; it removes the entry, preserves
the per-key lifetime metric and emits Deleted. Mutations are rejected in
readonly mode for non-privileged callers. -/
def deleteOp (client : List Nat) (now : Nat) (key : List Nat) (k : Kernel) :
    Kernel × Except Err DeleteResponse :=
  if k.readonly && !(client = k.config.privilegedClientID) then (k, .error .readOnly)
  else
    match alookup k.entries key with
    | none => (k, .error .notFound)
    | some e =>
        if entryExpired now e then
          (emit { k with entries := aremove k.entries key } key .expired now
            (strBytes "keyquarry"), .error .notFound)
        else if lockedByOther k.config now client e then (k, .error .locked)
        else
          (emit { k with entries := aremove k.entries key } key .deleted now client,
            .ok ⟨true⟩)

/-- Modelled from the spec: Unlock. Only the owner or a privileged client
may release an active lock; a foreign unlock fails with the Locked error.
Unlocking a key that is not locked (or whose lock has expired) succeeds
without effect beyond cleaning the stale lock. -/
def unlockOp (client : List Nat) (now : Nat) (key : List Nat) (k : Kernel) :
    Kernel × Except Err UnlockResponse :=
  if k.readonly && !(client = k.config.privilegedClientID) then (k, .error .readOnly)
  else
    match alookup k.entries key with
    | none => (k, .error .notFound)
    | some e =>
        if entryExpired now e then
          (emit { k with entries := aremove k.entries key } key .expired now
            (strBytes "keyquarry"), .error .notFound)
        else
          match e.lock with
          | none => (k, .ok ⟨true⟩)
          | some l =>
              if lockActive now l then
                if !(l.owner = client) && !(client = k.config.privilegedClientID) then
                  (k, .error .locked)
                else
                  (emit { k with entries := aupsert k.entries key { e with lock := none } }
                    key .unlocked now client, .ok ⟨true⟩)
              else
                ({ k with entries := aupsert k.entries key { e with lock := none } },
                  .ok ⟨true⟩)

/-- Modelled from the spec: Lock acquires an exclusive lock for the given
duration; a foreign active lock is an error; the owner or a privileged
client may re-lock. With create-if-missing an absent key is created with
an empty value and locked. -/
def lockOp (client : List Nat) (now : Nat) (key : List Nat) (duration : Nat)
    (createIfMissing : Bool) (k : Kernel) : Kernel × Except Err LockResponse :=
  if k.readonly && !(client = k.config.privilegedClientID) then (k, .error .readOnly)
  else if key = [] || k.config.maxKeyLength < key.length then (k, .error .invalidArgument)
  else
    match alookup k.entries key with
    | some e =>
        if entryExpired now e then
          let k1 := emit { k with entries := aremove k.entries key } key .expired now
            (strBytes "keyquarry")
          if createIfMissing then
            let e1 := newEntry client now ⟨key, [], [], some duration, none⟩
            let k2 := emit { k1 with entries := aupsert k1.entries key e1 } key .created now client
            (updMetric (emit k2 key .locked now client) key (tickLock now), .ok ⟨true⟩)
          else (k1, .error .notFound)
        else if lockedByOther k.config now client e then (k, .error .locked)
        else
          let e1 := { e with lock := some ⟨client, now, some (now + duration)⟩ }
          let k1 := emit { k with entries := aupsert k.entries key e1 } key .locked now client
          (updMetric k1 key (tickLock now), .ok ⟨true⟩)
    | none =>
        if createIfMissing then
          let e1 := newEntry client now ⟨key, [], [], some duration, none⟩
          let k1 := emit { k with entries := aupsert k.entries key e1 } key .created now client
          (updMetric (emit k1 key .locked now client) key (tickLock now), .ok ⟨true⟩)
        else (k, .error .notFound)

/-- Modelled from the spec: SetReadOnly toggles readonly mode; it is the
one mutation permitted while readonly, and only for the privileged
client. -/
def setReadOnlyOp (client : List Nat) (enable : Bool) (k : Kernel) :
    Kernel × Except Err ReadOnlyResponse :=
  if client = k.config.privilegedClientID then
    ({ k with readonly := enable }, .ok ⟨true⟩)
  else (k, .error .permissionDenied)

/-- Parse the body of a glob character class: the bytes up to the closing
bracket (byte 93), returning the body and the remaining pattern. -/
def spanClass : List Nat → Option (List Nat × List Nat)
  | [] => none
  | c :: rest =>
      if c = 93 then some ([], rest)
      else (spanClass rest).map (fun p => (c :: p.1, p.2))

/-- Membership of a byte in a glob character-class body, supporting
ranges written lo-hi (the dash is byte 45). -/
def classMember : List Nat → Nat → Bool
  | lo :: d :: hi :: rest, c =>
      if d = 45 then (lo ≤ c && c ≤ hi) || classMember rest c
      else lo = c || classMember (d :: hi :: rest) c
  | x :: rest, c => x = c || classMember rest c
  | [], _ => false

/-- A glob character class matches a byte; a leading caret (byte 94)
negates the class. -/
def classMatch (body : List Nat) (c : Nat) : Bool :=
  match body with
  | 94 :: inner => !(classMember inner c)
  | _ => classMember body c

/-- Modelled from the spec: glob matching for ListKeys patterns with `*`
(byte 42, any sequence), `?` (byte 63, any single byte) and character
classes (brackets, bytes 91 and 93). -/
def globMatch : List Nat → List Nat → Bool
  | [], [] => true
  | [], _ :: _ => false
  | 42 :: ps, s =>
      globMatch ps s ||
        (match s with
         | [] => false
         | _ :: cs => globMatch (42 :: ps) cs)
  | 63 :: ps, _ :: cs => globMatch ps cs
  | 63 :: _, [] => false
  | 91 :: ps, c :: cs =>
      (match spanClass ps with
       | some (body, rest) => classMatch body c && globMatch rest cs
       | none => false)
  | 91 :: _, [] => false
  | p :: ps, c :: cs => p = c && globMatch ps cs
  | _ :: _, [] => false
termination_by p s => (s.length, p.length)

/-- Modelled from the spec: whether a key name matches a ListKeys request
pattern; an empty pattern matches every key. -/
def patternMatches (pat key : List Nat) : Bool :=
  pat = [] || globMatch pat key

/-- Modelled from the spec: ListKeys returns the keys matching the glob
pattern, excluding reserved keys unless include-reserved, truncated to the
limit when the limit is positive. -/
def listKeysOp (k : Kernel) (pat : List Nat) (limit : Nat) (includeReserved : Bool) :
    List (List Nat) :=
  let names := (k.entries.map Prod.fst).filter
    (fun key => (includeReserved || !(isReservedName k.config key)) && patternMatches pat key)
  if limit = 0 then names else names.take limit

/-! ## Snapshot engine -/

/-- Modelled from the spec: the kernel image serialized by the snapshot
engine: the per-key-metric table and the entries table. -/
structure Snapshot where
  keys : List (List Nat × Entry)
  metrics : List (List Nat × KeyMetricRec)
deriving DecidableEq, Repr

/-- Boolean lexicographic order on byte lists, for the deterministic
record ordering of snapshot encodes. -/
def nameLe : List Nat → List Nat → Bool
  | [], _ => true
  | _ :: _, [] => false
  | a :: as, b :: bs => if a < b then true else if b < a then false else nameLe as bs

/-- Modelled from the spec: the point-in-time logical copy the emission
serializes, with records ordered by key name for determinism. -/
def snapshotImage (k : Kernel) : Snapshot :=
  ⟨List.insertionSort (fun a b => nameLe a.1 b.1 = true) k.entries,
   List.insertionSort (fun a b => nameLe a.1 b.1 = true) k.metrics⟩

/-- Encode one symbol. -/
def encN (n : Nat) : List Nat := [n]

/-- Encode a byte list with a length prefix. -/
def encL (l : List Nat) : List Nat := l.length :: l

/-- Encode an optional symbol. -/
def encO : Option Nat → List Nat
  | none => [0]
  | some n => [1, n]

/-- Encode an optional lock record. -/
def encLock : Option LockRecord → List Nat
  | none => [0]
  | some l => 1 :: (encL l.owner ++ encN l.acquiredAt ++ encO l.expiresAt)

/-- Encode one revision. -/
def encRev (r : Revision) : List Nat :=
  encL r.value ++ encL r.contentType ++ encN r.hash ++ encN r.version ++
    encN r.timestamp ++ encL r.clientId

/-- Encode a counted sequence. -/
def encSeq {α : Type} (enc : α → List Nat) (l : List α) : List Nat :=
  l.length :: l.foldr (fun x acc => enc x ++ acc) []

/-- Encode one entry record. -/
def encEntry (e : Entry) : List Nat :=
  encL e.value ++ encL e.contentType ++ encN e.version ++ encN e.hash ++
    encN e.created ++ encO e.updated ++ encO e.lifespan ++ encO e.lifespanSet ++
    encLock e.lock ++ encSeq encRev e.history

/-- Encode one per-key metric record. -/
def encMetric (m : KeyMetricRec) : List Nat :=
  encN m.accessCount ++ encO m.firstAccessed ++ encO m.lastAccessed ++
    encN m.setCount ++ encO m.firstSet ++ encO m.lastSet ++
    encN m.lockCount ++ encO m.firstLocked ++ encO m.lastLocked

/-- Encode one named entry record. -/
def encPairE (p : List Nat × Entry) : List Nat := encL p.1 ++ encEntry p.2

/-- Encode one named metric record. -/
def encPairM (p : List Nat × KeyMetricRec) : List Nat := encL p.1 ++ encMetric p.2

/-- Modelled from the spec: the structured encoding of a snapshot image: a
version tag, then the metric table, then the entries table. -/
def encodeSnapshot (s : Snapshot) : List Nat :=
  1 :: (encSeq encPairM s.metrics ++ encSeq encPairE s.keys)

/-- Decode one symbol. -/
def decN : List Nat → Option (Nat × List Nat)
  | [] => none
  | n :: r => some (n, r)

/-- Split off a chunk of the given length. -/
def decChunk : Nat → List Nat → Option (List Nat × List Nat)
  | 0, bs => some ([], bs)
  | _ + 1, [] => none
  | n + 1, b :: bs => (decChunk n bs).map (fun p => (b :: p.1, p.2))

/-- Decode a length-prefixed byte list. -/
def decL (bs : List Nat) : Option (List Nat × List Nat) :=
  decN bs >>= fun p => decChunk p.1 p.2

/-- Decode an optional symbol. -/
def decO : List Nat → Option (Option Nat × List Nat)
  | 0 :: r => some (none, r)
  | 1 :: n :: r => some (some n, r)
  | _ => none

/-- Decode an optional lock record. -/
def decLock : List Nat → Option (Option LockRecord × List Nat)
  | 0 :: r => some (none, r)
  | 1 :: r =>
      decL r >>= fun po =>
      decN po.2 >>= fun pa =>
      decO pa.2 >>= fun pe =>
      some (some ⟨po.1, pa.1, pe.1⟩, pe.2)
  | _ => none

/-- Decode one revision. -/
def decRev (bs : List Nat) : Option (Revision × List Nat) :=
  decL bs >>= fun pv =>
  decL pv.2 >>= fun pc =>
  decN pc.2 >>= fun ph =>
  decN ph.2 >>= fun pw =>
  decN pw.2 >>= fun pt =>
  decL pt.2 >>= fun pi =>
  some (⟨pv.1, pc.1, ph.1, pw.1, pt.1, pi.1⟩, pi.2)

/-- Decode a counted sequence of records. -/
def decCount {α : Type} (dec : List Nat → Option (α × List Nat)) :
    Nat → List Nat → Option (List α × List Nat)
  | 0, bs => some ([], bs)
  | n + 1, bs =>
      dec bs >>= fun p => (decCount dec n p.2).map (fun q => (p.1 :: q.1, q.2))

/-- Decode a counted sequence with its count. -/
def decSeq {α : Type} (dec : List Nat → Option (α × List Nat)) (bs : List Nat) :
    Option (List α × List Nat) :=
  decN bs >>= fun p => decCount dec p.1 p.2

/-- Decode one entry record. -/
def decEntry (bs : List Nat) : Option (Entry × List Nat) :=
  decL bs >>= fun pv =>
  decL pv.2 >>= fun pc =>
  decN pc.2 >>= fun pw =>
  decN pw.2 >>= fun ph =>
  decN ph.2 >>= fun pcr =>
  decO pcr.2 >>= fun pu =>
  decO pu.2 >>= fun pl =>
  decO pl.2 >>= fun pls =>
  decLock pls.2 >>= fun plk =>
  decSeq decRev plk.2 >>= fun phs =>
  some (⟨pv.1, pc.1, pw.1, ph.1, pcr.1, pu.1, pl.1, pls.1, plk.1, phs.1⟩, phs.2)

/-- Decode one per-key metric record. -/
def decMetric (bs : List Nat) : Option (KeyMetricRec × List Nat) :=
  decN bs >>= fun pa =>
  decO pa.2 >>= fun pfa =>
  decO pfa.2 >>= fun pla =>
  decN pla.2 >>= fun ps =>
  decO ps.2 >>= fun pfs =>
  decO pfs.2 >>= fun pls =>
  decN pls.2 >>= fun pl =>
  decO pl.2 >>= fun pfl =>
  decO pfl.2 >>= fun pll =>
  some (⟨pa.1, pfa.1, pla.1, ps.1, pfs.1, pls.1, pl.1, pfl.1, pll.1⟩, pll.2)

/-- Decode one named entry record. -/
def decPairE (bs : List Nat) : Option ((List Nat × Entry) × List Nat) :=
  decL bs >>= fun pk => (decEntry pk.2).map (fun pe => ((pk.1, pe.1), pe.2))

/-- Decode one named metric record. -/
def decPairM (bs : List Nat) : Option ((List Nat × KeyMetricRec) × List Nat) :=
  decL bs >>= fun pk => (decMetric pk.2).map (fun pm => ((pk.1, pm.1), pm.2))

/-- Modelled from the spec: decoding of the structured snapshot encoding;
fails on a wrong version tag or trailing garbage. -/
def decodeSnapshot : List Nat → Option Snapshot
  | 1 :: r =>
      decSeq decPairM r >>= fun pm =>
      decSeq decPairE pm.2 >>= fun pk =>
      if pk.2 = [] then some ⟨pk.1, pm.1⟩ else none
  | _ => none

/-- Modelled from the spec: gzip compression abstracted to an invertible
framing of the byte stream. -/
def compressB (bs : List Nat) : List Nat := bs.length :: bs

/-- Inverse of the compression framing. -/
def decompressB : List Nat → Option (List Nat)
  | [] => none
  | n :: r => if r.length = n then some r else none

/-- Modelled from the spec: the AEAD keystream symbol at a position,
derived from the secret key and the nonce. -/
def ksym (key nonce : List Nat) (i : Nat) : Nat := fnv64 (key ++ nonce ++ [i])

/-- XOR a byte stream against the keystream starting at a position. -/
def xorStream (key nonce : List Nat) : Nat → List Nat → List Nat
  | _, [] => []
  | i, b :: bs => (b ^^^ ksym key nonce i) :: xorStream key nonce (i + 1) bs

/-- Modelled from the spec: authenticated symmetric encryption over a
nonce prepended to the ciphertext, with an authentication tag. -/
def aeadEncrypt (key nonce pt : List Nat) : List Nat :=
  let ct := xorStream key nonce 0 pt
  encL nonce ++ encL ct ++ [fnv64 (key ++ nonce ++ ct)]

/-- Modelled from the spec: AEAD decryption; verifies the tag and inverts
the keystream. -/
def aeadDecrypt (key bs : List Nat) : Option (List Nat) :=
  decL bs >>= fun pn =>
  decL pn.2 >>= fun pc =>
  match pc.2 with
  | [tag] =>
      if tag = fnv64 (key ++ pn.1 ++ pc.1) then some (xorStream key pn.1 0 pc.1)
      else none
  | _ => none

/-- Modelled from the spec: the bytes of an emitted snapshot file: the
structured encoding, compressed, then encrypted under the secret key. -/
def writeSnapshotBytes (secret nonce : List Nat) (s : Snapshot) : List Nat :=
  aeadEncrypt secret nonce (compressB (encodeSnapshot s))

/-- Modelled from the spec: reading a snapshot file back: decrypt (tag
verified), decompress, decode. -/
def readSnapshotBytes (secret bs : List Nat) : Option Snapshot :=
  aeadDecrypt secret bs >>= fun pt => decompressB pt >>= decodeSnapshot

/-- Modelled from the spec: rebuilding the kernel from a restored
snapshot on startup. -/
def restoreKernel (cfg : Config) (s : Snapshot) : Kernel :=
  ⟨cfg, false, s.keys, s.metrics, [], 0⟩

/-- A snapshot file in the snapshot directory: a lexicographically
sortable timestamp name and the file bytes. -/
structure SnapFile where
  name : Nat
  data : List Nat
deriving DecidableEq, Repr

/-- Modelled from the spec: directory rotation after an emission: the
files are ordered by name-sorted timestamp and only the SnapshotLimit
most recent are kept, the oldest being deleted. -/
def rotateDir (limit : Nat) (files : List SnapFile) : List SnapFile :=
  let sorted := List.insertionSort (fun a b => a.name ≤ b.name) files
  sorted.drop (sorted.length - limit)

/-- Modelled from the spec: a snapshot emission adds a full new image to
the directory and rotates it. -/
def emitSnapshot (limit : Nat) (f : SnapFile) (dir : List SnapFile) : List SnapFile :=
  rotateDir limit (dir ++ [f])

/-! ## Concrete scenario stores -/

/-- A sequence of plain Sets of one key at consecutive times. -/
def setSeq (client key : List Nat) : List (List Nat) → Nat → Kernel → Kernel
  | [], _, k => k
  | v :: vs, t, k => setSeq client key vs (t + 1) (setOp client t ⟨key, v, [], none, none⟩ k).1

/-- Concrete instantiation of the C9 theorem. -/
def kC9 : Kernel :=
  ⟨⟨100, 1000, 0, 2, 0, 0, 0, strBytes "admin", strBytes "keyquarry/", 3⟩,
    false, [], [], [], 0⟩

/-- Concrete readonly store used by the C7 witness. -/
def kC7 : Kernel :=
  ⟨⟨100, 1000, 0, 2, 0, 0, 0, strBytes "admin", strBytes "keyquarry/", 3⟩,
    true, [], [], [], 0⟩

/-- Concrete locked store for the C5 witness. -/
def lC5 : LockRecord := ⟨strBytes "A", 0, some 10⟩

/-- Concrete entry locked by client A. -/
def eC5 : Entry :=
  ⟨strBytes "x", strBytes "t", 1, fnv64 (strBytes "x"), 0, none, none, none, some lC5, []⟩

/-- Concrete kernel holding the locked entry. -/
def kC5 : Kernel :=
  ⟨⟨100, 1000, 0, 2, 0, 0, 0, strBytes "admin", strBytes "keyquarry/", 3⟩,
    false, [(strBytes "k", eC5)], [], [], 0⟩

/-- Concrete store for the C8 witness, holding foo, bar, baz and one
reserved key. -/
def kC8 : Kernel :=
  ⟨⟨100, 1000, 0, 2, 0, 0, 0, strBytes "admin", strBytes "keyquarry/", 3⟩,
    false,
    [(strBytes "foo", eC5), (strBytes "bar", eC5), (strBytes "baz", eC5),
      (strBytes "keyquarry/x", eC5)],
    [], [], 0⟩

/-- The empty store with RevisionLimit 2 used by the revision-window
scenario. -/
def kRev : Kernel :=
  ⟨⟨100, 1000, 0, 2, 0, 0, 0, strBytes "admin", strBytes "keyquarry/", 3⟩,
    false, [], [], [], 0⟩

/-- The values committed by the four accepted non-noop Sets of the
revision-window scenario, in order. -/
def revVals : List (List Nat) :=
  [strBytes "v1", strBytes "v2", strBytes "v3", strBytes "v4"]

/-- The store after four Sets v1, v2, v3, v4 of foo under RevisionLimit
2. -/
def kRev4 : Kernel := setSeq (strBytes "cl") (strBytes "foo") revVals 0 kRev

/-- The concrete entry of foo in the four-Set revision scenario. -/
def eRev4 : Entry :=
  (alookup kRev4.entries (strBytes "foo")).getD ⟨[], [], 1, 0, 0, none, none, none, none, []⟩

/-- The concrete per-key metric record of foo in the revision scenario. -/
def mRev4 : KeyMetricRec := (alookup kRev4.metrics (strBytes "foo")).getD emptyMetric

/-- Configuration of the eager-prune scenario: MaxNumberOfKeys 10,
EagerPruneAt 10, EagerPruneTo 8. -/
def cfg6 : Config := ⟨100, 1000, 10, 2, 0, 10, 8, strBytes "admin", strBytes "keyquarry/", 3⟩

/-- The i-th key name of the eager-prune scenario. -/
def key6 (i : Nat) : List Nat := strBytes "k" ++ [48 + i]

/-- An unlocked, non-reserved, lifespan-free entry. -/
def ent6 : Entry := ⟨[1], strBytes "t", 1, fnv64 [1], 0, none, none, none, none, []⟩

/-- Metric record whose last access was at time i. -/
def met6 (i : Nat) : KeyMetricRec := ⟨1, some i, some i, 1, some 0, some 0, 0, none, none⟩

/-- The store at capacity: ten unlocked non-reserved keys, the i-th
last accessed at time i. -/
def k6 : Kernel :=
  ⟨cfg6, false,
    (List.range 10).map (fun i => (key6 i, ent6)),
    (List.range 10).map (fun i => (key6 i, met6 i)),
    [], 0⟩

/-- The Set that creates an eleventh key on the full store. -/
def set11 : Kernel × Except Err SetResponse :=
  setOp (strBytes "cl") 100 ⟨strBytes "new", [99], [], none, none⟩ k6

instance : IsTotal SnapFile (fun a b => a.name ≤ b.name) :=
  ⟨fun a b => Nat.le_total a.name b.name⟩

instance : IsTrans SnapFile (fun a b => a.name ≤ b.name) :=
  ⟨fun _ _ _ hab hbc => Nat.le_trans hab hbc⟩

/-- Secret key of the rotation scenario. -/
def secSnap : List Nat := [5, 6]

/-- Configuration of the rotation scenario (SnapshotLimit 3). -/
def cfgSnap : Config := ⟨100, 1000, 0, 2, 0, 0, 0, strBytes "admin", strBytes "keyquarry/", 3⟩

/-- The store after the first i key writes of the rotation scenario. -/
def kSnap : Nat → Kernel
  | 0 => ⟨cfgSnap, false, [], [], [], 0⟩
  | i + 1 =>
      (setOp (strBytes "cl") i
        ⟨strBytes "foo-" ++ [48 + i], strBytes "bar", [], none, none⟩ (kSnap i)).1

/-- The snapshot file emitted at interval i for a given store state. -/
def fSnap (i : Nat) (k : Kernel) : SnapFile :=
  ⟨i, writeSnapshotBytes secSnap [i] (snapshotImage k)⟩

/-- The snapshot directory after four interval emissions and the final
flush on graceful shutdown, under SnapshotLimit 3. -/
def dirSnap5 : List SnapFile :=
  emitSnapshot 3 (fSnap 4 (kSnap 4))
    (emitSnapshot 3 (fSnap 3 (kSnap 4))
      (emitSnapshot 3 (fSnap 2 (kSnap 3))
        (emitSnapshot 3 (fSnap 1 (kSnap 2))
          (emitSnapshot 3 (fSnap 0 (kSnap 1)) []))))

/-! ## Theorems -/

theorem alookup_aupsert_self {α : Type} (l : List (List Nat × α)) (key : List Nat) (v : α) :
    alookup (aupsert l key v) key = some v := by
  induction l with
  | nil => simp [aupsert, alookup]
  | cons p rest ih =>
      rcases p with ⟨pk, pw⟩
      by_cases h : pk = key
      · simp [aupsert, alookup, h]
      · simp [aupsert, alookup, h, ih]

theorem setOp_new_key (k : Kernel) (client key v : List Nat) (now : Nat)
    (hro : k.readonly = false)
    (habs : alookup k.entries key = none)
    (hk1 : key ≠ []) (hk2 : key.length ≤ k.config.maxKeyLength)
    (hv : v.length ≤ k.config.maxValueSize)
    (hcap : k.config.maxNumberOfKeys = 0 ∨ k.entries.length < k.config.maxNumberOfKeys) :
    setOp client now ⟨key, v, [], none, none⟩ k =
      insertNew client now ⟨key, v, [], none, none⟩ k := by
  have hcap2 : ¬ (k.config.maxNumberOfKeys ≠ 0 ∧
      k.config.maxNumberOfKeys ≤ k.entries.length) := by
    rcases hcap with h | h
    · intro hc; exact hc.1 h
    · intro hc; omega
  simp [setOp, hro, hk1, Nat.not_lt.mpr hk2, Nat.not_lt.mpr hv, habs, hcap2]

theorem insertNew_snd (client : List Nat) (now : Nat) (req : SetRequest) (k : Kernel) :
    (insertNew client now req k).2 = .ok ⟨true, true⟩ := by
  simp [insertNew]

theorem insertNew_entries (client : List Nat) (now : Nat) (req : SetRequest) (k : Kernel) :
    (insertNew client now req k).1.entries = aupsert k.entries req.key (newEntry client now req) := by
  rcases hl : req.lockDuration with _ | d <;> rcases hf : req.lifespan with _ | f <;>
    simp [insertNew, emit, updMetric, hl, hf]

theorem insertNew_readonly (client : List Nat) (now : Nat) (req : SetRequest) (k : Kernel) :
    (insertNew client now req k).1.readonly = k.readonly := by
  rcases hl : req.lockDuration with _ | d <;> rcases hf : req.lifespan with _ | f <;>
    simp [insertNew, emit, updMetric, hl, hf]

theorem insertNew_config (client : List Nat) (now : Nat) (req : SetRequest) (k : Kernel) :
    (insertNew client now req k).1.config = k.config := by
  rcases hl : req.lockDuration with _ | d <;> rcases hf : req.lifespan with _ | f <;>
    simp [insertNew, emit, updMetric, hl, hf]

theorem setSeq_append (client key : List Nat) (vs : List (List Nat)) (v : List Nat)
    (t : Nat) (k : Kernel) :
    setSeq client key (vs ++ [v]) t k =
      (setOp client (t + vs.length) ⟨key, v, [], none, none⟩ (setSeq client key vs t k)).1 := by
  induction vs generalizing t k with
  | nil => simp [setSeq]
  | cons w ws ih =>
      rw [List.cons_append, setSeq, setSeq, ih]
      have : t + 1 + ws.length = t + (ws.length + 1) := by omega
      rw [this]
      rfl

theorem take_cons_take {α : Type} (x : α) (t : List α) (L : Nat) :
    (x :: t.take L).take L = (x :: t).take L := by
  cases L with
  | zero => simp
  | succ m =>
      simp only [List.take_succ_cons]
      rw [List.take_take]
      have : min m (m + 1) = m := by omega
      rw [this]

theorem setOp_update_existing (k : Kernel) (client key vB : List Nat) (now : Nat) (e : Entry)
    (hro : k.readonly = false)
    (hk1 : key ≠ []) (hk2 : key.length ≤ k.config.maxKeyLength)
    (hv : vB.length ≤ k.config.maxValueSize)
    (hA : alookup k.entries key = some e)
    (hnexp : entryExpired now e = false)
    (hnlock : lockedByOther k.config now client e = false)
    (hnnoop : isNoopSet e ⟨key, vB, [], none, none⟩ = false) :
    setOp client now ⟨key, vB, [], none, none⟩ k =
      (updMetric
        (emit
          { k with
            entries :=
              aupsert k.entries key
                (updatedEntry k.config client now ⟨key, vB, [], none, none⟩ e) }
          key .updated now client)
        key (tickSet now), .ok ⟨true, false⟩) := by
  rw [setOp]
  simp [hro, hk1, Nat.not_lt.mpr hk2, Nat.not_lt.mpr hv, hA, hnexp, hnlock, hnnoop]

theorem setSeq_invariant (k0 : Kernel) (client key : List Nat) (vals : List (List Nat))
    (t0 : Nat)
    (hro : k0.readonly = false)
    (habs : alookup k0.entries key = none)
    (hk1 : key ≠ []) (hk2 : key.length ≤ k0.config.maxKeyLength)
    (hcap : k0.config.maxNumberOfKeys = 0)
    (hvs : ∀ v ∈ vals, v.length ≤ k0.config.maxValueSize)
    (hne : vals ≠ [])
    (hchain : List.Chain' (fun a b => fnv64 a ≠ fnv64 b) vals) :
    (setSeq client key vals t0 k0).readonly = false ∧
    (setSeq client key vals t0 k0).config = k0.config ∧
    ∃ e : Entry,
      alookup (setSeq client key vals t0 k0).entries key = some e ∧
      vals.getLast? = some e.value ∧
      e.hash = fnv64 e.value ∧
      e.lifespan = none ∧ e.lock = none ∧
      e.history.map (fun r => r.value) =
        (vals.dropLast.reverse).take k0.config.revisionLimit := by
  induction vals using List.reverseRecOn with
  | nil => exact absurd rfl hne
  | append_singleton vs v ih =>
      have hvmem : v ∈ vs ++ [v] := by simp
      by_cases hvs0 : vs = []
      · subst hvs0
        have hone : setSeq client key ([] ++ [v]) t0 k0 =
            (setOp client t0 ⟨key, v, [], none, none⟩ k0).1 := by
          simp [setSeq]
        have hnew := setOp_new_key k0 client key v t0 hro habs hk1 hk2
          (hvs v hvmem) (Or.inl hcap)
        rw [hone, hnew]
        refine ⟨(insertNew_readonly _ _ _ _).trans hro, insertNew_config _ _ _ _,
          newEntry client t0 ⟨key, v, [], none, none⟩, ?_, ?_, rfl, rfl, rfl, ?_⟩
        · rw [insertNew_entries]
          exact alookup_aupsert_self _ _ _
        · rfl
        · simp [newEntry]
      · rw [List.chain'_append] at hchain
        obtain ⟨hch1, _, hch3⟩ := hchain
        have hvs' : ∀ w ∈ vs, w.length ≤ k0.config.maxValueSize :=
          fun w hw => hvs w (List.mem_append_left _ hw)
        obtain ⟨hro', hcfg', e, hA, hlast, hhash, hlif, hlock, hhist⟩ :=
          ih hvs' hvs0 hch1
        have hnexp : ∀ m : Nat, entryExpired m e = false := by
          intro m
          rw [entryExpired, hlif]
        have hnlock : lockedByOther (setSeq client key vs t0 k0).config
            (t0 + vs.length) client e = false := by
          rw [lockedByOther, hlock]
        have hneq : ¬ (fnv64 v = e.hash) := by
          intro hc
          have hlast2 : fnv64 e.value ≠ fnv64 v := by
            apply hch3 e.value
            · exact hlast
            · simp
          rw [hhash] at hc
          exact hlast2 hc.symm
        have hnnoop : isNoopSet e ⟨key, v, [], none, none⟩ = false := by
          simp [isNoopSet, hneq]
        have hupd := setOp_update_existing (setSeq client key vs t0 k0) client key v
          (t0 + vs.length) e hro' hk1 (by rw [hcfg']; exact hk2)
          (by rw [hcfg']; exact hvs v hvmem) hA (hnexp _) hnlock hnnoop
        rw [setSeq_append, hupd]
        refine ⟨by simp [updMetric, emit, hro'], by simp [updMetric, emit, hcfg'],
          updatedEntry (setSeq client key vs t0 k0).config client (t0 + vs.length)
            ⟨key, v, [], none, none⟩ e, ?_, ?_, rfl, ?_, ?_, ?_⟩
        · simp only [updMetric, emit]
          exact alookup_aupsert_self _ _ _
        · simp [updatedEntry]
        · simp [updatedEntry, hlif]
        · simp [updatedEntry, hlock]
        · have hgl : e.value = vs.getLast hvs0 := by
            have := List.getLast?_eq_getLast vs hvs0
            rw [this] at hlast
            exact (Option.some.inj hlast).symm
          have hrev : e.value :: vs.dropLast.reverse = vs.reverse := by
            conv_rhs => rw [← List.dropLast_append_getLast hvs0]
            rw [List.reverse_append, List.reverse_singleton, hgl]
            rfl
          simp only [updatedEntry, hcfg', List.map_take, List.map_cons]
          rw [hhist, take_cons_take, hrev, List.dropLast_concat]

theorem decChunk_append (l r : List Nat) : decChunk l.length (l ++ r) = some (l, r) := by
  induction l with
  | nil => rfl
  | cons b bs ih => simp [decChunk, ih]

theorem decL_enc (l r : List Nat) : decL (encL l ++ r) = some (l, r) := by
  simp [decL, encL, decN, decChunk_append]

theorem decO_enc (o : Option Nat) (r : List Nat) : decO (encO o ++ r) = some (o, r) := by
  cases o <;> rfl

theorem decLock_enc (o : Option LockRecord) (r : List Nat) :
    decLock (encLock o ++ r) = some (o, r) := by
  cases o with
  | none => rfl
  | some l => simp [decLock, encLock, encN, List.append_assoc, decL_enc, decN, decO_enc]

theorem decRev_enc (v : Revision) (r : List Nat) : decRev (encRev v ++ r) = some (v, r) := by
  simp [decRev, encRev, encN, List.append_assoc, decL_enc, decN, decO_enc]

theorem decCount_enc {α : Type} (dec : List Nat → Option (α × List Nat)) (enc : α → List Nat)
    (h : ∀ x r, dec (enc x ++ r) = some (x, r)) (l : List α) (r : List Nat) :
    decCount dec l.length (l.foldr (fun x acc => enc x ++ acc) [] ++ r) = some (l, r) := by
  induction l with
  | nil => rfl
  | cons x xs ih => simp [decCount, List.append_assoc, h, ih]

theorem decSeq_enc {α : Type} (dec : List Nat → Option (α × List Nat)) (enc : α → List Nat)
    (h : ∀ x r, dec (enc x ++ r) = some (x, r)) (l : List α) (r : List Nat) :
    decSeq dec (encSeq enc l ++ r) = some (l, r) := by
  simp [decSeq, encSeq, decN, decCount_enc dec enc h]

set_option maxHeartbeats 1000000 in
theorem decEntry_enc (e : Entry) (r : List Nat) : decEntry (encEntry e ++ r) = some (e, r) := by
  unfold decEntry encEntry
  simp only [encN, List.append_assoc, List.singleton_append, List.cons_append,
    List.nil_append, decL_enc, Option.bind_eq_bind, Option.some_bind, decN, decO_enc,
    decLock_enc, decSeq_enc decRev encRev decRev_enc]

theorem decMetric_enc (m : KeyMetricRec) (r : List Nat) :
    decMetric (encMetric m ++ r) = some (m, r) := by
  unfold decMetric encMetric
  simp only [encN, List.append_assoc, List.singleton_append, List.cons_append,
    List.nil_append, decN, Option.bind_eq_bind, Option.some_bind, decO_enc]

theorem decPairE_enc (p : List Nat × Entry) (r : List Nat) :
    decPairE (encPairE p ++ r) = some (p, r) := by
  simp [decPairE, encPairE, List.append_assoc, decL_enc, decEntry_enc]

theorem decPairM_enc (p : List Nat × KeyMetricRec) (r : List Nat) :
    decPairM (encPairM p ++ r) = some (p, r) := by
  simp [decPairM, encPairM, List.append_assoc, decL_enc, decMetric_enc]

theorem decodeSnapshot_encodeSnapshot (s : Snapshot) :
    decodeSnapshot (encodeSnapshot s) = some s := by
  have h1 := decSeq_enc decPairM encPairM decPairM_enc s.metrics
    (encSeq encPairE s.keys)
  have h2 := decSeq_enc decPairE encPairE decPairE_enc s.keys []
  rw [List.append_nil] at h2
  simp [decodeSnapshot, encodeSnapshot, h1, h2]

theorem decompressB_compressB (l : List Nat) : decompressB (compressB l) = some l := by
  simp [decompressB, compressB]

theorem xorStream_involutive (key nonce : List Nat) (i : Nat) (l : List Nat) :
    xorStream key nonce i (xorStream key nonce i l) = l := by
  induction l generalizing i with
  | nil => rfl
  | cons b bs ih => simp [xorStream, Nat.xor_cancel_right, ih]

theorem aeadDecrypt_aeadEncrypt (key nonce pt : List Nat) :
    aeadDecrypt key (aeadEncrypt key nonce pt) = some pt := by
  have h1 := decL_enc nonce (encL (xorStream key nonce 0 pt) ++
    [fnv64 (key ++ nonce ++ xorStream key nonce 0 pt)])
  have h2 := decL_enc (xorStream key nonce 0 pt)
    [fnv64 (key ++ nonce ++ xorStream key nonce 0 pt)]
  simp only [aeadEncrypt, aeadDecrypt, List.append_assoc] at h1 h2 ⊢
  rw [h1]
  simp only [Option.bind_eq_bind, Option.some_bind]
  rw [h2]
  simp [xorStream_involutive]

theorem readSnapshotBytes_writeSnapshotBytes (secret nonce : List Nat) (s : Snapshot) :
    readSnapshotBytes secret (writeSnapshotBytes secret nonce s) = some s := by
  rw [readSnapshotBytes, writeSnapshotBytes, aeadDecrypt_aeadEncrypt]
  simp [decompressB_compressB, decodeSnapshot_encodeSnapshot]

/-- Claim C1: GetRevision at version 0 returns the current value; a
positive version v returns the v-th retained revision counted from the
oldest retained, and fails not-found past the retained count; with
RevisionLimit 2 after four Sets v1..v4, version 0 is v4, version 1 is v2,
version 2 is v3 and version 3 is not-found. -/
theorem C1_get_revision (k : Kernel) (key : List Nat) (now v : Nat) (e : Entry)
    (hA : alookup k.entries key = some e) (hnexp : entryExpired now e = false) :
    ((getRevisionOp now key 0 k).2 = .ok ⟨e.value, e.updated.getD e.created⟩) ∧
    (∀ r : Revision, 1 ≤ v → e.history.reverse[v - 1]? = some r →
      (getRevisionOp now key v k).2 = .ok ⟨r.value, r.timestamp⟩) ∧
    (e.history.length < v → (getRevisionOp now key v k).2 = .error .notFound) ∧
    ((getRevisionOp 4 (strBytes "foo") 0 kRev4).2 = .ok ⟨strBytes "v4", 3⟩ ∧
     (getRevisionOp 4 (strBytes "foo") 1 kRev4).2 = .ok ⟨strBytes "v2", 2⟩ ∧
     (getRevisionOp 4 (strBytes "foo") 2 kRev4).2 = .ok ⟨strBytes "v3", 3⟩ ∧
     (getRevisionOp 4 (strBytes "foo") 3 kRev4).2 = .error .notFound) := by
  refine ⟨?_, ?_, ?_, by decide, by decide, by decide, by decide⟩
  · rw [getRevisionOp]
    simp [hA, hnexp]
  · intro r hv1 hr
    have hv0 : ¬ (v = 0) := by omega
    rw [getRevisionOp]
    simp [hA, hnexp, hv0, hr]
  · intro hlen
    have hv0 : ¬ (v = 0) := by omega
    have hnone : e.history.reverse[v - 1]? = none := by
      apply List.getElem?_eq_none
      rw [List.length_reverse]
      omega
    rw [getRevisionOp]
    simp [hA, hnexp, hv0, hnone]

/-- Witness for claim C1 at the concrete revision-window store. -/
theorem C1_get_revision_witness :
    (getRevisionOp 4 (strBytes "foo") 1 kRev4).2 = .ok ⟨strBytes "v2", 2⟩ := by
  have h := C1_get_revision kRev4 (strBytes "foo") 4 1 eRev4 (by decide) (by decide)
  exact h.2.2.2.2.1

/-- Claim C2 is false on the model at a concrete input: with RevisionLimit
2 after the four accepted non-noop Sets v1..v4 of foo, version 1 is
retained but GetRevision(foo, 1) returns v2, not the value v1 committed by
the 1st accepted non-noop Set. -/
theorem C2_get_revision_counterexample :
    revVals[0]? = some (strBytes "v1") ∧
    (∃ e : Entry, alookup kRev4.entries (strBytes "foo") = some e ∧ 1 ≤ e.history.length) ∧
    ((getRevisionOp 4 (strBytes "foo") 1 kRev4).2.toOption.map (fun r => r.value)) =
      some (strBytes "v2") ∧
    ¬ ((getRevisionOp 4 (strBytes "foo") 1 kRev4).2.toOption.map (fun r => r.value)) =
      some (strBytes "v1") :=
  ⟨by decide, ⟨eRev4, by decide, by decide⟩, by decide, by decide⟩

/-- Claim C2 amended: for a fresh key written by a sequence of accepted
non-noop Sets, GetRevision at version 0 returns the last committed value,
and at a retained version v returns the value committed by the (d+v)-th
accepted non-noop Set, where d is the number of oldest revisions discarded
by the RevisionLimit truncation (d = number of Sets - 1 - retained
history length); when nothing has been discarded this is the v-th Set. -/
theorem C2_amended_get_revision (k0 : Kernel) (client key : List Nat)
    (vals : List (List Nat)) (t0 : Nat)
    (hro : k0.readonly = false)
    (habs : alookup k0.entries key = none)
    (hk1 : key ≠ []) (hk2 : key.length ≤ k0.config.maxKeyLength)
    (hcap : k0.config.maxNumberOfKeys = 0)
    (hvs : ∀ v ∈ vals, v.length ≤ k0.config.maxValueSize)
    (hne : vals ≠ [])
    (hchain : List.Chain' (fun a b => fnv64 a ≠ fnv64 b) vals) :
    ∃ e : Entry,
      alookup (setSeq client key vals t0 k0).entries key = some e ∧
      vals.getLast? = some e.value ∧
      e.history.length = min k0.config.revisionLimit (vals.length - 1) ∧
      (∀ now : Nat,
        ((getRevisionOp now key 0 (setSeq client key vals t0 k0)).2.toOption.map
          (fun r => r.value)) = some e.value) ∧
      (∀ now v : Nat, 1 ≤ v → v ≤ e.history.length →
        ((getRevisionOp now key v (setSeq client key vals t0 k0)).2.toOption.map
          (fun r => r.value)) =
          vals[(vals.length - 1 - e.history.length) + (v - 1)]?) := by
  obtain ⟨hro', hcfg', e, hA, hlast, hhash, hlif, hlock, hhist⟩ :=
    setSeq_invariant k0 client key vals t0 hro habs hk1 hk2 hcap hvs hne hchain
  have hnexp : ∀ m : Nat, entryExpired m e = false := by
    intro m
    rw [entryExpired, hlif]
  have hn1 : 1 ≤ vals.length := by
    cases vals with
    | nil => exact absurd rfl hne
    | cons a l => simp
  have hlen : e.history.length = min k0.config.revisionLimit (vals.length - 1) := by
    have := congrArg List.length hhist
    rw [List.length_map, List.length_take, List.length_reverse,
      List.length_dropLast] at this
    exact this
  refine ⟨e, hA, hlast, hlen, ?_, ?_⟩
  · intro now
    rw [getRevisionOp]
    simp [hA, hnexp now, Except.toOption]
  · intro now v hv1 hvh
    have hv0 : ¬ (v = 0) := by omega
    have hHle1 : e.history.length ≤ k0.config.revisionLimit := by
      rw [hlen]; exact Nat.min_le_left _ _
    have hHle2 : e.history.length ≤ vals.length - 1 := by
      rw [hlen]; exact Nat.min_le_right _ _
    have hidx : v - 1 < e.history.reverse.length := by
      rw [List.length_reverse]; omega
    obtain ⟨rv, hr⟩ : ∃ rv : Revision, e.history.reverse[v - 1]? = some rv :=
      ⟨_, List.getElem?_eq_getElem hidx⟩
    have hres : ((getRevisionOp now key v (setSeq client key vals t0 k0)).2.toOption.map
        (fun r => r.value)) = some rv.value := by
      rw [getRevisionOp]
      simp [hA, hnexp now, hv0, hr, Except.toOption]
    rw [hres]
    have hmap : (e.history.map (fun rr => rr.value)).reverse[v - 1]? = some rv.value := by
      rw [← List.map_reverse, List.getElem?_map, hr]
      rfl
    rw [hhist] at hmap
    have hlentake : (vals.dropLast.reverse.take k0.config.revisionLimit).length =
        e.history.length := by
      rw [List.length_take, List.length_reverse, List.length_dropLast, hlen]
    have hidx2 : v - 1 < (vals.dropLast.reverse.take k0.config.revisionLimit).length := by
      rw [hlentake]; omega
    rw [List.getElem?_reverse hidx2, hlentake] at hmap
    rw [List.getElem?_take] at hmap
    rw [if_pos (by omega)] at hmap
    have hidx3 : e.history.length - 1 - (v - 1) < vals.dropLast.length := by
      rw [List.length_dropLast]; omega
    rw [List.getElem?_reverse hidx3, List.length_dropLast] at hmap
    rw [List.dropLast_eq_take, List.getElem?_take] at hmap
    rw [if_pos (by omega)] at hmap
    have heq : vals.length - 1 - 1 - (e.history.length - 1 - (v - 1)) =
        vals.length - 1 - e.history.length + (v - 1) := by omega
    rw [heq] at hmap
    exact hmap.symm

/-- Witness for the amended claim C2 at the concrete revision-window
store. -/
theorem C2_amended_get_revision_witness :
    ∃ e : Entry,
      alookup (setSeq (strBytes "cl") (strBytes "foo") revVals 0 kRev).entries
        (strBytes "foo") = some e ∧
      revVals.getLast? = some e.value ∧
      e.history.length = min kRev.config.revisionLimit (revVals.length - 1) ∧
      (∀ now : Nat,
        ((getRevisionOp now (strBytes "foo") 0
          (setSeq (strBytes "cl") (strBytes "foo") revVals 0 kRev)).2.toOption.map
          (fun r => r.value)) = some e.value) ∧
      (∀ now v : Nat, 1 ≤ v → v ≤ e.history.length →
        ((getRevisionOp now (strBytes "foo") v
          (setSeq (strBytes "cl") (strBytes "foo") revVals 0 kRev)).2.toOption.map
          (fun r => r.value)) =
          revVals[(revVals.length - 1 - e.history.length) + (v - 1)]?) :=
  C2_amended_get_revision kRev (strBytes "cl") (strBytes "foo") revVals 0
    rfl rfl (by decide) (by decide) rfl (by decide) (by decide)
    (by simp only [revVals, List.chain'_cons, List.chain'_singleton, and_true]
        refine ⟨by decide, by decide, by decide⟩)

/-- Claim C3: snapshot encode followed by decode is the identity on the
kernel image, AEAD decryption inverts encryption under the same key, and
consequently a full write/read of the snapshot restores every key with
identical entry (value, hash, version, history within RevisionLimit) and
per-key metric counters. -/
theorem C3_snapshot_durability (k : Kernel) (secret nonce key : List Nat) (e : Entry)
    (m : KeyMetricRec)
    (hmeme : (key, e) ∈ k.entries) (hmemm : (key, m) ∈ k.metrics)
    (hinv : e.history.length ≤ k.config.revisionLimit) :
    (∀ s : Snapshot, decodeSnapshot (encodeSnapshot s) = some s) ∧
    (∀ sk nn pt : List Nat, aeadDecrypt sk (aeadEncrypt sk nn pt) = some pt) ∧
    readSnapshotBytes secret (writeSnapshotBytes secret nonce (snapshotImage k)) =
      some (snapshotImage k) ∧
    (key, e) ∈ (restoreKernel k.config (snapshotImage k)).entries ∧
    (key, m) ∈ (restoreKernel k.config (snapshotImage k)).metrics ∧
    e.history.length ≤ (restoreKernel k.config (snapshotImage k)).config.revisionLimit := by
  refine ⟨decodeSnapshot_encodeSnapshot, aeadDecrypt_aeadEncrypt,
    readSnapshotBytes_writeSnapshotBytes secret nonce _, ?_, ?_, hinv⟩
  · show (key, e) ∈ (snapshotImage k).keys
    rw [snapshotImage]
    exact (List.mem_insertionSort _).mpr hmeme
  · show (key, m) ∈ (snapshotImage k).metrics
    rw [snapshotImage]
    exact (List.mem_insertionSort _).mpr hmemm

/-- Witness for claim C3 at the concrete revision-window store. -/
theorem C3_snapshot_durability_witness :
    readSnapshotBytes [7, 7] (writeSnapshotBytes [7, 7] [9] (snapshotImage kRev4)) =
      some (snapshotImage kRev4) ∧
    (strBytes "foo", eRev4) ∈ (restoreKernel kRev4.config (snapshotImage kRev4)).entries ∧
    (strBytes "foo", mRev4) ∈ (restoreKernel kRev4.config (snapshotImage kRev4)).metrics := by
  have h := C3_snapshot_durability kRev4 [7, 7] [9] (strBytes "foo") eRev4 mRev4
    (by decide) (by decide) (by decide)
  exact ⟨h.2.2.1, h.2.2.2.1, h.2.2.2.2.1⟩

set_option maxRecDepth 8000 in
set_option maxHeartbeats 1000000 in
/-- Claim C4: every snapshot emission leaves at most SnapshotLimit files,
the files removed are the oldest by name-sorted timestamp, and in the
concrete scenario (SnapshotLimit 3, four keys written across four
intervals, final flush on shutdown) exactly three files remain, the oldest
are deleted, and the newest file decodes to an image holding all four
keys. -/
theorem C4_snapshot_rotation (limit : Nat) (f x y : SnapFile) (dir : List SnapFile)
    (hx : x ∈ (List.insertionSort (fun a b => a.name ≤ b.name) (dir ++ [f])).take
      ((dir ++ [f]).length - limit))
    (hy : y ∈ emitSnapshot limit f dir) :
    (emitSnapshot limit f dir).length ≤ limit ∧
    x.name ≤ y.name ∧
    dirSnap5.length = 3 ∧
    dirSnap5.map (fun g => g.name) = [2, 3, 4] ∧
    readSnapshotBytes secSnap ((dirSnap5.getD 2 ⟨0, []⟩).data) =
      some (snapshotImage (kSnap 4)) ∧
    (snapshotImage (kSnap 4)).keys.map Prod.fst =
      [strBytes "foo-0", strBytes "foo-1", strBytes "foo-2", strBytes "foo-3"] := by
  have hperm := List.perm_insertionSort (fun a b => a.name ≤ b.name) (dir ++ [f])
  have hlen : (List.insertionSort (fun a b => a.name ≤ b.name) (dir ++ [f])).length =
      (dir ++ [f]).length := hperm.length_eq
  refine ⟨?_, ?_, by decide, by decide, ?_, by decide⟩
  · rw [emitSnapshot, rotateDir]
    simp only [List.length_drop, hlen]
    omega
  · rw [emitSnapshot, rotateDir] at hy
    rw [← hlen] at hx
    exact List.Sorted.rel_of_mem_take_of_mem_drop
      (List.sorted_insertionSort (fun a b => a.name ≤ b.name) (dir ++ [f])) hx hy
  · have : (dirSnap5.getD 2 ⟨0, []⟩) = fSnap 4 (kSnap 4) := by decide
    rw [this]
    exact readSnapshotBytes_writeSnapshotBytes secSnap [4] (snapshotImage (kSnap 4))

/-- Witness for claim C4 at a concrete two-file directory with limit
one. -/
theorem C4_snapshot_rotation_witness :
    (emitSnapshot 1 (⟨2, []⟩ : SnapFile) [⟨1, []⟩]).length ≤ 1 ∧
    (⟨1, ([] : List Nat)⟩ : SnapFile).name ≤ (⟨2, ([] : List Nat)⟩ : SnapFile).name := by
  have h := C4_snapshot_rotation 1 ⟨2, []⟩ ⟨1, []⟩ ⟨2, []⟩ [⟨1, []⟩] (by decide) (by decide)
  exact ⟨h.1, h.2.1⟩

/-- Claim C5: a key locked by client A with an unexpired lock rejects Set,
Delete and Unlock from any other non-privileged client B with the Locked
error and no state change, until A unlocks; after the successful Unlock by
A, a Set by B on the key succeeds. -/
theorem C5_foreign_lock (k : Kernel) (A B key vB : List Nat) (now : Nat)
    (e : Entry) (l : LockRecord)
    (hro : k.readonly = false)
    (hA : alookup k.entries key = some e) (hl : e.lock = some l) (hown : l.owner = A)
    (hactive : lockActive now l = true)
    (hBA : B ≠ A) (hBp : B ≠ k.config.privilegedClientID)
    (hnexp : entryExpired now e = false)
    (hk1 : key ≠ []) (hk2 : key.length ≤ k.config.maxKeyLength)
    (hv : vB.length ≤ k.config.maxValueSize) :
    setOp B now ⟨key, vB, [], none, none⟩ k = (k, .error .locked) ∧
    deleteOp B now key k = (k, .error .locked) ∧
    unlockOp B now key k = (k, .error .locked) ∧
    (unlockOp A now key k).2 = .ok ⟨true⟩ ∧
    (setOp B now ⟨key, vB, [], none, none⟩ (unlockOp A now key k).1).2 = .ok ⟨true, false⟩ := by
  have howneq : ¬ (l.owner = B) := by rw [hown]; exact fun hc => hBA hc.symm
  have hlocked : lockedByOther k.config now B e = true := by
    rw [lockedByOther, hl]
    simp [hactive, howneq, hBp]
  have hunlockA : unlockOp A now key k =
      (emit { k with entries := aupsert k.entries key { e with lock := none } }
        key .unlocked now A, .ok ⟨true⟩) := by
    rw [unlockOp]
    simp [hro, hA, hnexp, hl, hactive, hown]
  refine ⟨?_, ?_, ?_, ?_, ?_⟩
  · rw [setOp]
    simp [hro, hk1, Nat.not_lt.mpr hk2, Nat.not_lt.mpr hv, hA, hnexp, hlocked]
  · rw [deleteOp]
    simp [hro, hA, hnexp, hlocked]
  · rw [unlockOp]
    simp [hro, hA, hnexp, hl, hactive, howneq, hBp]
  · rw [hunlockA]
  · rw [hunlockA, setOp]
    have hnexp2 : entryExpired now { e with lock := none } = false := hnexp
    have hlock2 : lockedByOther k.config now B { e with lock := none } = false := rfl
    simp only [emit]
    simp [hro, hk1, Nat.not_lt.mpr hk2, Nat.not_lt.mpr hv, alookup_aupsert_self,
      hnexp2, hlock2]
    by_cases hnoop : isNoopSet { e with lock := none } ⟨key, vB, [], none, none⟩ = true
    · simp [hnoop]
    · simp [hnoop]

/-- Witness for claim C5 at a concrete locked store. -/
theorem C5_foreign_lock_witness :
    setOp (strBytes "B") 5 ⟨strBytes "k", strBytes "y", [], none, none⟩ kC5 =
      (kC5, .error .locked) ∧
    deleteOp (strBytes "B") 5 (strBytes "k") kC5 = (kC5, .error .locked) ∧
    unlockOp (strBytes "B") 5 (strBytes "k") kC5 = (kC5, .error .locked) ∧
    (unlockOp (strBytes "A") 5 (strBytes "k") kC5).2 = .ok ⟨true⟩ ∧
    (setOp (strBytes "B") 5 ⟨strBytes "k", strBytes "y", [], none, none⟩
      (unlockOp (strBytes "A") 5 (strBytes "k") kC5).1).2 = .ok ⟨true, false⟩ :=
  C5_foreign_lock kC5 (strBytes "A") (strBytes "B") (strBytes "k") (strBytes "y") 5 eC5 lC5
    rfl (by decide) rfl rfl (by decide) (by decide) (by decide) rfl (by decide) (by decide)
    (by decide)

/-- Claim C6 is false on the model at its own concrete input: the
eleventh Set succeeds after exactly one synchronous eager prune and leaves
Stats.keys = 9 with EagerPruneTriggered = 1, but pruning down to
EagerPruneTo = 8 removes the two least-recently-accessed keys, not three
(removing three would leave 8 keys, contradicting keys = 9). -/
theorem C6_eager_prune_counterexample :
    set11.2 = .ok ⟨true, true⟩ ∧
    statsKeys set11.1 = 9 ∧
    set11.1.eagerPruneTriggered = 1 ∧
    countEvents set11.1 .expunged = 2 ∧
    ¬ countEvents set11.1 .expunged = 3 :=
  ⟨by decide, by decide, by decide, by decide, by decide⟩

/-- Claim C6 amended: with MaxNumberOfKeys = 10, EagerPruneAt = 10,
EagerPruneTo = 8 and ten existing unlocked non-reserved keys, a Set
creating an eleventh key triggers exactly one synchronous eager prune,
succeeds, and leaves Stats.keys = 9 with EagerPruneTriggered = 1 and the
two least-recently-accessed unlocked non-reserved keys removed, emitting
one Expunged event for each. -/
theorem C6_eager_prune_amended :
    set11.2 = .ok ⟨true, true⟩ ∧
    statsKeys set11.1 = 9 ∧
    set11.1.eagerPruneTriggered = 1 ∧
    (set11.1.events.filter (fun ev => decide (ev.kind = KeyEventKind.expunged))).map
      (fun ev => ev.key) = [key6 0, key6 1] ∧
    alookup set11.1.entries (key6 0) = none ∧
    alookup set11.1.entries (key6 1) = none ∧
    ((List.range 10).drop 2).all (fun i => (alookup set11.1.entries (key6 i)).isSome) = true ∧
    alookup set11.1.entries (strBytes "new") ≠ none :=
  ⟨by decide, by decide, by decide, by decide, by decide, by decide, by decide, by decide⟩

/-- Claim C7: while readonly mode is on, every mutating operation by a
non-privileged client fails with the ReadOnly error and changes no state;
SetReadOnly by the privileged client always succeeds and toggles the
mode, after which ordinary mutations succeed again. -/
theorem C7_readonly_mode (k : Kernel) (c key : List Nat) (now d : Nat) (req : SetRequest)
    (cim : Bool)
    (hro : k.readonly = true) (hc : c ≠ k.config.privilegedClientID) :
    setOp c now req k = (k, .error .readOnly) ∧
    deleteOp c now key k = (k, .error .readOnly) ∧
    lockOp c now key d cim k = (k, .error .readOnly) ∧
    unlockOp c now key k = (k, .error .readOnly) ∧
    (∀ en : Bool, setReadOnlyOp k.config.privilegedClientID en k =
      ({ k with readonly := en }, .ok ⟨true⟩)) ∧
    (∀ key2 v2 : List Nat, alookup k.entries key2 = none → key2 ≠ [] →
      key2.length ≤ k.config.maxKeyLength → v2.length ≤ k.config.maxValueSize →
      (k.config.maxNumberOfKeys = 0 ∨ k.entries.length < k.config.maxNumberOfKeys) →
      (setOp c now ⟨key2, v2, [], none, none⟩
        (setReadOnlyOp k.config.privilegedClientID false k).1).2 = .ok ⟨true, true⟩) := by
  have hpriv : ∀ en : Bool, setReadOnlyOp k.config.privilegedClientID en k =
      ({ k with readonly := en }, .ok ⟨true⟩) := by
    intro en; simp [setReadOnlyOp]
  refine ⟨?_, ?_, ?_, ?_, hpriv, ?_⟩
  · simp [setOp, hro, hc]
  · simp [deleteOp, hro, hc]
  · simp [lockOp, hro, hc]
  · simp [unlockOp, hro, hc]
  · intro key2 v2 habs hk1 hk2 hv hcap
    rw [hpriv false]
    have := setOp_new_key { k with readonly := false } c key2 v2 now rfl habs hk1 hk2 hv hcap
    rw [this, insertNew_snd]

/-- Witness for claim C7 at a concrete readonly store. -/
theorem C7_readonly_mode_witness :
    setOp (strBytes "foo") 0 ⟨strBytes "a", [1], [], none, none⟩ kC7 =
      (kC7, .error .readOnly) ∧
    (setOp (strBytes "foo") 0 ⟨strBytes "a", [1], [], none, none⟩
      (setReadOnlyOp (strBytes "admin") false kC7).1).2 = .ok ⟨true, true⟩ := by
  have h := C7_readonly_mode kC7 (strBytes "foo") (strBytes "a") 0 0
    ⟨strBytes "a", [1], [], none, none⟩ false rfl (by decide)
  exact ⟨h.1, h.2.2.2.2.2 (strBytes "a") [1] rfl (by decide) (by decide) (by decide)
    (Or.inl rfl)⟩

/-- Claim C8: ListKeys returns exactly the keys matching the glob pattern
(an empty pattern matches all), excluding reserved keys unless
include-reserved, and truncates to the limit when it is positive. -/
theorem C8_list_keys (k : Kernel) (pat : List Nat) (limit : Nat) (incl : Bool)
    (key : List Nat) :
    (key ∈ listKeysOp k pat 0 incl ↔
      key ∈ k.entries.map Prod.fst ∧ patternMatches pat key = true ∧
        (incl = true ∨ isReservedName k.config key = false)) ∧
    (key ∈ listKeysOp k pat limit incl →
      key ∈ k.entries.map Prod.fst ∧ patternMatches pat key = true ∧
        (incl = true ∨ isReservedName k.config key = false)) ∧
    (0 < limit → (listKeysOp k pat limit incl).length ≤ limit) ∧
    patternMatches [] key = true := by
  have hchar : ∀ key2 : List Nat,
      key2 ∈ (k.entries.map Prod.fst).filter
        (fun key3 => (incl || !(isReservedName k.config key3)) && patternMatches pat key3) ↔
      key2 ∈ k.entries.map Prod.fst ∧ patternMatches pat key2 = true ∧
        (incl = true ∨ isReservedName k.config key2 = false) := by
    intro key2
    rw [List.mem_filter]
    constructor
    · rintro ⟨hm, hp⟩
      simp only [Bool.and_eq_true, Bool.or_eq_true, Bool.not_eq_true'] at hp
      exact ⟨hm, hp.2, hp.1⟩
    · rintro ⟨hm, hp, hr⟩
      refine ⟨hm, ?_⟩
      simp only [Bool.and_eq_true, Bool.or_eq_true, Bool.not_eq_true']
      exact ⟨hr, hp⟩
  refine ⟨?_, ?_, ?_, by simp [patternMatches]⟩
  · rw [listKeysOp]
    simpa using hchar key
  · intro hmem
    rw [listKeysOp] at hmem
    rcases Nat.eq_zero_or_pos limit with h0 | hpos
    · subst h0
      simp only [if_pos rfl] at hmem
      exact (hchar key).mp hmem
    · rw [if_neg (Nat.pos_iff_ne_zero.mp hpos)] at hmem
      exact (hchar key).mp (List.take_subset _ _ hmem)
  · intro hpos
    rw [listKeysOp, if_neg (Nat.pos_iff_ne_zero.mp hpos)]
    exact List.length_take_le _ _

/-- Witness for claim C8 at a concrete store: pattern ba* excludes foo and
the reserved key, and a limit of two truncates the listing. -/
theorem C8_list_keys_witness :
    (strBytes "bar" ∈ listKeysOp kC8 (strBytes "ba*") 0 false ↔
      strBytes "bar" ∈ kC8.entries.map Prod.fst ∧
        patternMatches (strBytes "ba*") (strBytes "bar") = true ∧
        (false = true ∨ isReservedName kC8.config (strBytes "bar") = false)) ∧
    ((listKeysOp kC8 [] 2 false).length ≤ 2) := by
  have h := C8_list_keys kC8 (strBytes "ba*") 0 false (strBytes "bar")
  have h2 := C8_list_keys kC8 [] 2 false (strBytes "bar")
  exact ⟨h.1, h2.2.2.1 (by decide)⟩

/-- Claim C9: a Set of a fresh valid key in a writable store succeeds with
is-new true, a subsequent Get returns exactly the set value, and on a
store that contained no other key Stats reports one key. -/
theorem C9_set_get_single_key (k : Kernel) (client client2 key v : List Nat) (now now2 : Nat)
    (hro : k.readonly = false)
    (habs : alookup k.entries key = none)
    (hk1 : key ≠ []) (hk2 : key.length ≤ k.config.maxKeyLength)
    (hv : v.length ≤ k.config.maxValueSize)
    (hcap : k.config.maxNumberOfKeys = 0 ∨ k.entries.length < k.config.maxNumberOfKeys) :
    (setOp client now ⟨key, v, [], none, none⟩ k).2 = .ok ⟨true, true⟩ ∧
    (getOp client2 now2 key (setOp client now ⟨key, v, [], none, none⟩ k).1).2 = .ok ⟨v⟩ ∧
    (k.entries = [] → statsKeys (setOp client now ⟨key, v, [], none, none⟩ k).1 = 1) := by
  have hset := setOp_new_key k client key v now hro habs hk1 hk2 hv hcap
  rw [hset]
  have hent := insertNew_entries client now ⟨key, v, [], none, none⟩ k
  refine ⟨insertNew_snd _ _ _ _, ?_, ?_⟩
  · rw [getOp, hent]
    simp [alookup_aupsert_self, newEntry, entryExpired]
  · intro hempty
    rw [statsKeys, hent, hempty]
    rfl

/-- Witness for claim C9 at a concrete store. -/
theorem C9_set_get_single_key_witness :
    (setOp (strBytes "foo") 0 ⟨strBytes "foo", strBytes "bar", [], none, none⟩ kC9).2 =
      .ok ⟨true, true⟩ ∧
    (getOp (strBytes "foo") 1 (strBytes "foo")
      (setOp (strBytes "foo") 0 ⟨strBytes "foo", strBytes "bar", [], none, none⟩ kC9).1).2 =
      .ok ⟨strBytes "bar"⟩ ∧
    statsKeys (setOp (strBytes "foo") 0 ⟨strBytes "foo", strBytes "bar", [], none, none⟩ kC9).1 = 1 := by
  have h := C9_set_get_single_key kC9 (strBytes "foo") (strBytes "foo") (strBytes "foo")
    (strBytes "bar") 0 1 rfl rfl (by decide) (by decide) (by decide) (Or.inl rfl)
  exact ⟨h.1, h.2.1, h.2.2 rfl⟩

/-- Claim C10: Lock with create-if-missing on an absent key creates the
key with an empty value, acquires the lock for the caller and succeeds. -/
theorem C10_lock_create_if_missing (k : Kernel) (client key : List Nat) (d now : Nat)
    (hro : k.readonly = false)
    (habs : alookup k.entries key = none)
    (hk1 : key ≠ []) (hk2 : key.length ≤ k.config.maxKeyLength) :
    (lockOp client now key d true k).2 = .ok ⟨true⟩ ∧
    alookup (lockOp client now key d true k).1.entries key =
      some (newEntry client now ⟨key, [], [], some d, none⟩) ∧
    (newEntry client now ⟨key, [], [], some d, none⟩).value = [] ∧
    (newEntry client now ⟨key, [], [], some d, none⟩).lock =
      some ⟨client, now, some (now + d)⟩ := by
  refine ⟨?_, ?_, rfl, rfl⟩ <;>
    simp [lockOp, hro, hk1, Nat.not_lt.mpr hk2, habs, emit, updMetric, alookup_aupsert_self]

/-- Witness for claim C10 at a concrete store. -/
theorem C10_lock_create_if_missing_witness :
    (lockOp (strBytes "foo") 0 (strBytes "somerandomkey") 10 true kC9).2 = .ok ⟨true⟩ ∧
    alookup (lockOp (strBytes "foo") 0 (strBytes "somerandomkey") 10 true kC9).1.entries
      (strBytes "somerandomkey") =
      some (newEntry (strBytes "foo") 0 ⟨strBytes "somerandomkey", [], [], some 10, none⟩) ∧
    (newEntry (strBytes "foo") 0 ⟨strBytes "somerandomkey", [], [], some 10, none⟩).value = [] ∧
    (newEntry (strBytes "foo") 0 ⟨strBytes "somerandomkey", [], [], some 10, none⟩).lock =
      some ⟨strBytes "foo", 0, some 10⟩ :=
  C10_lock_create_if_missing kC9 (strBytes "foo") (strBytes "somerandomkey") 10 0
    rfl rfl (by decide) (by decide)

end Keyquarry
